import Mathlib

/-!
Verification development for the UML/MCD diagram editor's geometric layout
and rendering engine.  The definitions below are shallow embeddings of the
TypeScript source: `src/utils/geometry` (dimension calculator, rectangle and
polygon border intersection, label placement, association shape generator),
the `renderConnection` layout resolver of the canvas renderer (the variant
with early self-reference detection, and the older variant without it), and
the entity-deletion cascade of the application state handler.

Numbers are modelled as real numbers (JS `number` arithmetic, exact here);
JS `Array.find` becomes `List.find?`, `Array.filter` becomes `List.filter`,
`Array.findIndex` becomes `List.findIdx?`, and fallible rendering returns
`Option`.  The canvas text-measurement helper is modelled by its own
deterministic fallback (8 px per character), the path taken when no canvas
context is available.
-/

namespace UMLGen

structure Point where
  x : ℝ
  y : ℝ

structure Attribute where
  id : String
  name : String
  isPk : Bool

structure Entity where
  id : String
  name : String
  x : ℝ
  y : ℝ
  width : ℝ
  height : ℝ
  attributes : List Attribute

structure Connection where
  id : String
  entityId : String
  cardinality : String

structure Association where
  id : String
  label : String
  entityName : Option String
  x : ℝ
  y : ℝ
  entityBoxX : Option ℝ
  entityBoxY : Option ℝ
  attributes : List Attribute
  connections : List Connection
  isLabelMovable : Bool

noncomputable section

open Classical

/-- Constants for entity sizing (`HEADER_HEIGHT`, `ROW_HEIGHT`, `PADDING`
in `geometry`). -/
def HEADER_HEIGHT : ℝ := 30

def ROW_HEIGHT : ℝ := 24

def PADDING : ℝ := 20

/-- `measureTextWidth`: the source measures text in a canvas 2d context and
falls back to `text.length * 8` when no context is available; the fallback
is the deterministic path modelled here (the font argument is irrelevant to
the fallback). -/
def measureTextWidth (text : String) : ℝ := text.length * 8

/-- Display text of an attribute row: `attr.name + (attr.isPk ? ' PK' : '')`. -/
def attrDisplayText (attr : Attribute) : String :=
  attr.name ++ (if attr.isPk then " PK" else "")

/-- `getEntityDimensions` from `geometry`: actual rendered width/height of an
entity.  `width = max(entity.width, nameWidth, maxAttrWidth, 120)`,
`height = max(entity.height, HEADER_HEIGHT + n * ROW_HEIGHT + PADDING)`. -/
def getEntityDimensions (entity : Entity) : ℝ × ℝ :=
  let entityNameWidth := measureTextWidth entity.name + PADDING
  let maxAttrWidth := entity.attributes.foldl
    (fun m attr => max m (measureTextWidth (attrDisplayText attr) + PADDING)) 0
  (max (max (max entity.width entityNameWidth) maxAttrWidth) 120,
   max entity.height
     (HEADER_HEIGHT + entity.attributes.length * ROW_HEIGHT + PADDING))

/-- `getCenter` for an entity: top-left corner plus half the rendered size. -/
def getCenter (entity : Entity) : Point :=
  ⟨entity.x + (getEntityDimensions entity).1 / 2,
   entity.y + (getEntityDimensions entity).2 / 2⟩

/-- The slab parameter `t = Math.min(|tx|, |ty|)` of `getIntersection`,
where `tx`/`ty` are `Infinity` when the corresponding delta is zero (so
`min` picks the other one; the caller rules out both being zero). -/
def slabParam (dx dy halfW halfH : ℝ) : ℝ :=
  let tx := (if 0 < dx then halfW else -halfW) / dx
  let ty := (if 0 < dy then halfH else -halfH) / dy
  if dx = 0 then |ty| else if dy = 0 then |tx| else min |tx| |ty|

/-- `getIntersection` from `geometry`: parametric slab intersection of the
ray from the rectangle's own center toward `target` with the rectangle's
border.  Note that the source never reads the `center` argument: it always
works from `cx, cy` recomputed from `rect`; if both deltas vanish the
rectangle center is returned. -/
def getIntersection (_center target : Point) (rect : Entity) : Point :=
  let w := (getEntityDimensions rect).1
  let h := (getEntityDimensions rect).2
  let cx := rect.x + w / 2
  let cy := rect.y + h / 2
  let dx := target.x - cx
  let dy := target.y - cy
  if dx = 0 ∧ dy = 0 then ⟨cx, cy⟩
  else
    let t := slabParam dx dy (w / 2) (h / 2)
    ⟨cx + dx * t, cy + dy * t⟩

/-- `getLineIntersection` from `geometry`: determinant-method intersection of
segments `(x1,y1)-(x2,y2)` and `(x3,y3)-(x4,y4)`; parallel segments
(`denom == 0`) are rejected, and the parameters `ua`, `ub` must lie in
`[0, 1]`. -/
def getLineIntersection (x1 y1 x2 y2 x3 y3 x4 y4 : ℝ) : Option Point :=
  let denom := (y4 - y3) * (x2 - x1) - (x4 - x3) * (y2 - y1)
  if denom = 0 then none
  else
    let ua := ((x4 - x3) * (y1 - y3) - (y4 - y3) * (x1 - x3)) / denom
    let ub := ((x2 - x1) * (y1 - y3) - (y2 - y1) * (x1 - x3)) / denom
    if 0 ≤ ua ∧ ua ≤ 1 ∧ 0 ≤ ub ∧ ub ≤ 1 then
      some ⟨x1 + ua * (x2 - x1), y1 + ua * (y2 - y1)⟩
    else none

/-- Distance from `a` to `b` as computed in `getPolygonIntersection`. -/
def ptDist (a b : Point) : ℝ :=
  Real.sqrt ((b.x - a.x) ^ 2 + (b.y - a.y) ^ 2)

/-- One edge of the (closed) polygon: `points[i]` to `points[(i+1) % n]`. -/
def polyEdge (points : List Point) (i : ℕ) : Point × Point :=
  (points.getD i ⟨0, 0⟩, points.getD ((i + 1) % points.length) ⟨0, 0⟩)

/-- The intersection computed for edge `i` of the polygon against the
segment `center → target`. -/
def edgeInter (center target : Point) (points : List Point) (i : ℕ) :
    Option Point :=
  let p1 := (polyEdge points i).1
  let p2 := (polyEdge points i).2
  getLineIntersection center.x center.y target.x target.y p1.x p1.y p2.x p2.y

/-- Loop body of `getPolygonIntersection`: keep the accepted intersection
strictly closest to `center` (`none` in the accumulator plays the role of
the initial `minDist = Infinity`). -/
def polyStep (center target : Point) (points : List Point)
    (acc : Point × Option ℝ) (i : ℕ) : Point × Option ℝ :=
  match edgeInter center target points i with
  | none => acc
  | some inter =>
    let dist := ptDist center inter
    match acc.2 with
    | none => (inter, some dist)
    | some m => if dist < m then (inter, some dist) else acc

/-- `getPolygonIntersection` from `geometry`: among the accepted edge
intersections, the one closest to `center`; `center` itself when the
polygon has fewer than 2 points or no edge intersects. -/
def getPolygonIntersection (center target : Point) (points : List Point) :
    Point :=
  if points.length < 2 then center
  else
    ((List.range points.length).foldl
      (polyStep center target points) (center, none)).1

/-- `getLabelPosition` from `geometry`: the point `distance` px along the
ray `start → end`; `start` unchanged when the two coincide. -/
def getLabelPosition (start stop : Point) (distance : ℝ) : Point :=
  let dx := stop.x - start.x
  let dy := stop.y - start.y
  let len := Real.sqrt (dx * dx + dy * dy)
  if len = 0 then start
  else ⟨start.x + dx / len * distance, start.y + dy / len * distance⟩

/-- `getAssociationShapePoints` from `geometry`: label box for arity ≤ 2, a
triangle with hard-coded `0.866` / `0.5` coefficients for arity 3, and a
regular polygon of circumradius 40 (rotated 45° for arity 4) otherwise. -/
def getAssociationShapePoints (association : Association) : List Point :=
  let count := association.connections.length
  let cx := association.x
  let cy := association.y
  let size : ℝ := 40
  if count ≤ 2 then
    let w := max 40 (association.label.length * 7 + 10 : ℝ)
    let h : ℝ := 20
    [⟨cx - w / 2, cy - h / 2⟩, ⟨cx + w / 2, cy - h / 2⟩,
     ⟨cx + w / 2, cy + h / 2⟩, ⟨cx - w / 2, cy + h / 2⟩]
  else if count = 3 then
    let r := size * 1.2
    [⟨cx, cy - r⟩, ⟨cx + r * 0.866, cy + r * 0.5⟩, ⟨cx - r * 0.866, cy + r * 0.5⟩]
  else
    let sides := count
    let angleOffset := -(Real.pi / 2) + (if sides = 4 then Real.pi / 4 else 0)
    (List.range sides).map fun (i : ℕ) =>
      let theta := angleOffset + (i : ℝ) * 2 * Real.pi / sides
      ⟨cx + size * Real.cos theta, cy + size * Real.sin theta⟩

/-- Geometry emitted for a locked binary association (`renderConnection`,
binary-locked branch): the offset amount of the parallel-edge fan-out, the
two offset border points, the label midpoint, and both cardinality
positions. -/
structure LockedGeom where
  offsetAmount : ℝ
  border1 : Point
  border2 : Point
  labelPoint : Point
  card1 : Point
  card2 : Point

/-- Geometry emitted for one spoke of a polygon-node association
(`renderConnection`, standard branch): association border point, entity
border point, and the cardinality position. -/
structure SpokeGeom where
  borderA : Point
  borderE : Point
  cardPos : Point

/-- Data of `renderSelfReferencingConnection` observed by the claims: the
loop offset (`selfRefIndex * 40`) and which sub-variant (movable label or
fixed bracket) is drawn. -/
structure SelfRefGeom where
  loopOffset : ℝ
  movableVariant : Bool

/-- The per-connection render plan produced by the layout resolver. -/
inductive RenderPlan where
  | selfRefLoop (g : SelfRefGeom)
  | lockedLine (g : LockedGeom)
  | spokeLine (g : SpokeGeom)

/-- `[entity1.id, entity2.id].sort().join('-')` for a two-element array:
lexicographic sort of the two ids, joined with a dash. -/
def pairKeyOf (id1 id2 : String) : String :=
  if id1 ≤ id2 then id1 ++ "-" ++ id2 else id2 ++ "-" ++ id1

/-- Filter predicate for `sameEntityPairAssocs`: locked binary associations
whose sorted connection-id pair matches `pairKey`. -/
def sameEntityPairPred (pairKey : String) (b : Association) : Bool :=
  match b.connections with
  | [c, d] => !b.isLabelMovable && (pairKeyOf c.entityId d.entityId == pairKey)
  | _ => false

/-- `entities.find(e => e.id === eid)`. -/
def findEntity (entities : List Entity) (eid : String) : Option Entity :=
  entities.find? (fun e => e.id == eid)

/-- `sameEntityPairAssocs`: the locked binary associations between the same
entity pair, in stable input order. -/
def sameEntityPairAssocsOf (associations : List Association)
    (entity1 entity2 : Entity) : List Association :=
  associations.filter (sameEntityPairPred (pairKeyOf entity1.id entity2.id))

/-- `assocIndex`: the rank of this association among its same-pair siblings
(`findIndex`, hence `-1` when absent, as in JS). -/
def assocRank (associations : List Association) (assoc : Association)
    (entity1 entity2 : Entity) : ℝ :=
  match (sameEntityPairAssocsOf associations entity1 entity2).findIdx?
      (fun b => b.id == assoc.id) with
  | some i => (i : ℝ)
  | none => -1

/-- `offsetAmount = (assocIndex - (totalSame - 1) / 2) * 25`. -/
def offsetAmountOf (associations : List Association) (assoc : Association)
    (entity1 entity2 : Entity) : ℝ :=
  (assocRank associations assoc entity1 entity2 -
    (((sameEntityPairAssocsOf associations entity1 entity2).length : ℝ) - 1) / 2) * 25

/-- `len`: distance between the two entity centers. -/
def lenOf (entity1 entity2 : Entity) : ℝ :=
  let dx := (getCenter entity2).x - (getCenter entity1).x
  let dy := (getCenter entity2).y - (getCenter entity1).y
  Real.sqrt (dx * dx + dy * dy)

/-- `perpX`: x-component of the perpendicular unit vector (0 for
coincident centers). -/
def perpXOf (entity1 entity2 : Entity) : ℝ :=
  if 0 < lenOf entity1 entity2 then
    -((getCenter entity2).y - (getCenter entity1).y) / lenOf entity1 entity2
  else 0

/-- `perpY`: y-component of the perpendicular unit vector (1 for
coincident centers). -/
def perpYOf (entity1 entity2 : Entity) : ℝ :=
  if 0 < lenOf entity1 entity2 then
    ((getCenter entity2).x - (getCenter entity1).x) / lenOf entity1 entity2
  else 1

/-- The geometry computed in the binary-locked branch of `renderConnection`:
rank the association among its same-pair siblings, offset the centers by
`(rank - (total-1)/2) * 25` along the perpendicular unit vector, intersect
with each entity border, and offset the border points. -/
def lockedGeometry (associations : List Association) (assoc : Association)
    (entity1 entity2 : Entity) : LockedGeom :=
  let center1 := getCenter entity1
  let center2 := getCenter entity2
  let offsetAmount := offsetAmountOf associations assoc entity1 entity2
  let offsetX := perpXOf entity1 entity2 * offsetAmount
  let offsetY := perpYOf entity1 entity2 * offsetAmount
  let offsetCenter1 : Point := ⟨center1.x + offsetX, center1.y + offsetY⟩
  let offsetCenter2 : Point := ⟨center2.x + offsetX, center2.y + offsetY⟩
  let border1 := getIntersection center1 offsetCenter2 entity1
  let border2 := getIntersection center2 offsetCenter1 entity2
  let finalBorder1 : Point := ⟨border1.x + offsetX, border1.y + offsetY⟩
  let finalBorder2 : Point := ⟨border2.x + offsetX, border2.y + offsetY⟩
  let mid : Point :=
    ⟨(finalBorder1.x + finalBorder2.x) / 2, (finalBorder1.y + finalBorder2.y) / 2⟩
  ⟨offsetAmount, finalBorder1, finalBorder2, mid,
   getLabelPosition finalBorder1 finalBorder2 15,
   getLabelPosition finalBorder2 finalBorder1 15⟩

/-- The sibling ranking of `renderSelfReferencingConnection`: all binary
associations whose two connections both target `entity1`, the rank of this
one among them, and the resulting loop offset `rank * 40`. -/
def selfRefGeometry (associations : List Association) (assoc : Association)
    (entity1 : Entity) : SelfRefGeom :=
  let selfRefAssocs := associations.filter fun b =>
    match b.connections with
    | [c, d] => c.entityId == entity1.id && d.entityId == entity1.id
    | _ => false
  let selfRefIndex : ℝ :=
    match selfRefAssocs.findIdx? (fun b => b.id == assoc.id) with
    | some i => (i : ℝ)
    | none => -1
  ⟨selfRefIndex * 40, assoc.isLabelMovable⟩

/-- The standard (polygon-node spoke) branch of `renderConnection`. -/
def spokeGeometry (assoc : Association) (entity : Entity) : SpokeGeom :=
  let centerA : Point := ⟨assoc.x, assoc.y⟩
  let centerE := getCenter entity
  let borderE := getIntersection centerE centerA entity
  let assocPoints := getAssociationShapePoints assoc
  let borderA := getPolygonIntersection centerA centerE assocPoints
  ⟨borderA, borderE, getLabelPosition borderE centerA 15⟩

/-- The part of `renderConnection` after the early self-reference check:
`isBinaryLocked = connections.length === 2 && !isLabelMovable` selects the
straight-line branch (emitted only for `connIndex === 0`, and only when
both entities resolve); everything else falls through to the standard
spoke rendering. -/
def renderBinaryOrSpoke (entities : List Entity)
    (associations : List Association) (assoc : Association) (connIndex : ℕ)
    (entity : Entity) : Option RenderPlan :=
  match assoc.connections with
  | [c0, c1] =>
    if assoc.isLabelMovable then some (.spokeLine (spokeGeometry assoc entity))
    else
      match findEntity entities c0.entityId, findEntity entities c1.entityId with
      | some entity1, some entity2 =>
        if connIndex ≠ 0 then none
        else some (.lockedLine (lockedGeometry associations assoc entity1 entity2))
      | _, _ => none
  | _ => some (.spokeLine (spokeGeometry assoc entity))

/-- `renderConnection` of the canvas renderer with early self-reference
detection (the variant bundled in `exportUtils.ts`): resolve the
connection's entity (skip if dangling); for binary associations whose two
connections resolve to the same entity, always take the self-referencing
loop path regardless of `isLabelMovable`; otherwise fall through to the
binary-locked / standard classification. -/
def renderConnection (entities : List Entity) (associations : List Association)
    (assoc : Association) (connIndex : ℕ) : Option RenderPlan :=
  match assoc.connections[connIndex]? with
  | none => none
  | some conn =>
    match findEntity entities conn.entityId with
    | none => none
    | some entity =>
      match assoc.connections with
      | [c0, c1] =>
        match findEntity entities c0.entityId, findEntity entities c1.entityId with
        | some ent1, some ent2 =>
          if ent1.id = ent2.id then
            if connIndex ≠ 0 then none
            else some (.selfRefLoop (selfRefGeometry associations assoc ent1))
          else renderBinaryOrSpoke entities associations assoc connIndex entity
        | _, _ => renderBinaryOrSpoke entities associations assoc connIndex entity
      | _ => renderBinaryOrSpoke entities associations assoc connIndex entity

/-- Rendering mode selected by the older `DiagramCanvas.tsx` variant of
`renderConnection`, which has no self-reference handling. -/
inductive LegacyMode where
  | skipped
  | lockedLine
  | spokeLine
deriving DecidableEq

/-- Mode selection of the older `DiagramCanvas.tsx` `renderConnection`:
`isBinaryLocked = connections.length === 2 && !isLabelMovable` goes to the
straight-line branch directly, with no self-reference check. -/
def renderModeLegacy (entities : List Entity) (assoc : Association)
    (connIndex : ℕ) : LegacyMode :=
  match assoc.connections[connIndex]? with
  | none => .skipped
  | some conn =>
    match findEntity entities conn.entityId with
    | none => .skipped
    | some _entity =>
      match assoc.connections with
      | [c0, c1] =>
        if assoc.isLabelMovable then .spokeLine
        else
          match findEntity entities c0.entityId, findEntity entities c1.entityId with
          | some _, some _ => if connIndex ≠ 0 then .skipped else .lockedLine
          | _, _ => .skipped
      | _ => .spokeLine

/-- Entity-list update of `handleDeleteEntityDirect`:
`prev.filter(e => e.id !== id)`. -/
def deleteEntityFromEntities (id : String) (prev : List Entity) : List Entity :=
  prev.filter (fun e => !(e.id == id))

/-- Association-list update of `handleDeleteEntityDirect` (the `reduce` with
push): keep untouched associations, keep associations with more than two
connections with their connections to the deleted entity filtered out, and
drop connected associations with two or fewer connections. -/
def deleteEntityFromAssociations (id : String) :
    List Association → List Association
  | [] => []
  | assoc :: rest =>
    let tail := deleteEntityFromAssociations id rest
    if assoc.connections.any (fun c => c.entityId == id) then
      if 2 < assoc.connections.length then
        { assoc with
          connections := assoc.connections.filter (fun c => !(c.entityId == id)) }
          :: tail
      else tail
    else assoc :: tail

end

/-! Concrete sample data used by witnesses and counterexamples. -/

/-- Entity `A(id=1, x=0, y=0, w=160, h=100)` of the locked-binary scenario. -/
def entA : Entity := ⟨"1", "A", 0, 0, 160, 100, []⟩

/-- Entity `B(id=2, x=400, y=0, w=160, h=100)` of the locked-binary scenario. -/
def entB : Entity := ⟨"2", "B", 400, 0, 160, 100, []⟩

/-- The locked binary association of the scenario, cardinalities `"1"` and
`"0..*"`. -/
def assocAB : Association :=
  ⟨"r1", "R", none, 280, 50, none, none, [],
   [⟨"c1", "1", "1"⟩, ⟨"c2", "2", "0..*"⟩], false⟩

/-- A self-referencing binary association on entity `"9"`. -/
def entSelf : Entity := ⟨"9", "S", 0, 0, 160, 100, []⟩

/-- Self-loop: both connections reference entity `"9"`; label locked. -/
def assocSelf : Association :=
  ⟨"rs", "loop", none, 0, 0, none, none, [],
   [⟨"s1", "9", "1"⟩, ⟨"s2", "9", "0..*"⟩], false⟩

/-- An association with five connections (n-ary sample). -/
def assocFive : Association :=
  ⟨"r5", "N", none, 0, 0, none, none, [],
   [⟨"k1", "1", "1"⟩, ⟨"k2", "2", "1"⟩, ⟨"k3", "3", "1"⟩,
    ⟨"k4", "4", "1"⟩, ⟨"k5", "5", "1"⟩], true⟩

/-- Appending one attribute to an entity's attribute list. -/
def appendAttribute (e : Entity) (a : Attribute) : Entity :=
  { e with attributes := e.attributes ++ [a] }

/-- Witness entity for C8 (one short attribute). -/
def entWitC8 : Entity := ⟨"7", "W", 0, 0, 160, 100, [⟨"a1", "id", true⟩]⟩

/-- Witness attribute for C8, longer than every existing one. -/
def attrLong : Attribute := ⟨"a2", "very long attribute", false⟩

/-- A ternary association referencing entity `"1"` (C10 witness data). -/
def delTernary : Association :=
  ⟨"t1", "T1", none, 0, 0, none, none, [],
   [⟨"u1", "1", "1"⟩, ⟨"u2", "2", "1"⟩, ⟨"u3", "3", "1"⟩], false⟩

/-- A binary association referencing entity `"1"` (C10 witness data). -/
def delBinary : Association :=
  ⟨"t2", "T2", none, 0, 0, none, none, [],
   [⟨"v1", "1", "1"⟩, ⟨"v2", "2", "1"⟩], false⟩

/-- Witness association list for C10. -/
def delPrev : List Association := [delTernary, delBinary]

/-- An entity whose id `"404"` is referenced by `assocDangling`'s second
connection. -/
def entDangling : Entity := ⟨"404", "X", 600, 0, 160, 100, []⟩

/-- A locked binary association whose second connection dangles when entity
`"404"` is absent. -/
def assocDangling : Association :=
  ⟨"rd", "D", none, 0, 0, none, none, [],
   [⟨"d1", "1", "1"⟩, ⟨"d2", "404", "1"⟩], false⟩

/-- A ternary association centered at the origin (C7 data). -/
def assocTri : Association :=
  ⟨"r3", "T", none, 0, 0, none, none, [],
   [⟨"w1", "1", "1"⟩, ⟨"w2", "2", "1"⟩, ⟨"w3", "3", "1"⟩], true⟩

/-- The square polygon used by C5's witness. -/
def sqPts : List Point := [⟨5, -5⟩, ⟨5, 5⟩, ⟨-5, 5⟩, ⟨-5, -5⟩]

/-- Same-order sibling associations used by C3's witness. -/
def assocW1 : Association :=
  ⟨"q1", "Q1", none, 0, 0, none, none, [],
   [⟨"x1", "1", "1"⟩, ⟨"x2", "2", "1"⟩], false⟩

/-- Second sibling of C3's witness. -/
def assocW2 : Association :=
  ⟨"q2", "Q2", none, 0, 0, none, none, [],
   [⟨"y1", "1", "1"⟩, ⟨"y2", "2", "1"⟩], false⟩

/-- Third sibling of C3's witness. -/
def assocW3 : Association :=
  ⟨"q3", "Q3", none, 0, 0, none, none, [],
   [⟨"z1", "1", "1"⟩, ⟨"z2", "2", "1"⟩], false⟩

/-- Entity `L`: a 200×100 box whose right edge sits at `x = 100`. -/
def entL : Entity := ⟨"L", "L", -100, -50, 200, 100, []⟩

/-- Entity `R`: a 200×100 box whose left edge touches `entL` at `x = 100`. -/
def entR : Entity := ⟨"R", "R", 100, -50, 200, 100, []⟩

/-- First locked binary association `L → R` (rank 0). -/
def assocP1 : Association :=
  ⟨"p1", "P1", none, 0, 0, none, none, [],
   [⟨"a1", "L", "1"⟩, ⟨"a2", "R", "1"⟩], false⟩

/-- Second locked binary association `L → R` (rank 1). -/
def assocP2 : Association :=
  ⟨"p2", "P2", none, 0, 0, none, none, [],
   [⟨"b1", "L", "1"⟩, ⟨"b2", "R", "1"⟩], false⟩

/-- Third locked binary association, same pair but reversed order `R → L`
(rank 2). -/
def assocP3 : Association :=
  ⟨"p3", "P3", none, 0, 0, none, none, [],
   [⟨"c1", "R", "1"⟩, ⟨"c2", "L", "1"⟩], false⟩

/-- The three parallel associations of the C3 counterexample. -/
def assocPs : List Association := [assocP1, assocP2, assocP3]

/-- C6: the shape generator returns exactly 4 vertices for arity ≤ 2 and
exactly `connections.length` vertices for arity ≥ 3. -/
theorem shapePoints_vertex_count (a : Association) :
    (a.connections.length ≤ 2 → (getAssociationShapePoints a).length = 4) ∧
    (3 ≤ a.connections.length →
      (getAssociationShapePoints a).length = a.connections.length) := by
  constructor
  · intro h
    simp [getAssociationShapePoints, h]
  · intro h
    by_cases h3 : a.connections.length = 3
    · simp [getAssociationShapePoints, h3]
    · have h2 : ¬ a.connections.length ≤ 2 := by omega
      simp only [getAssociationShapePoints]
      rw [if_neg h2, if_neg h3, List.length_map, List.length_range]

/-- Witness for C6 at arity 2 and arity 5. -/
theorem shapePoints_vertex_count_witness :
    ((getAssociationShapePoints assocAB).length = 4 ∧
      (getAssociationShapePoints assocFive).length = 5) :=
  ⟨(shapePoints_vertex_count assocAB).1 (by decide),
   (shapePoints_vertex_count assocFive).2 (by decide)⟩

/-- C8: the dimension calculator is monotone — appending an attribute never
decreases the computed height, and appending an attribute whose display
text is longer than every existing one never decreases the computed
width. -/
theorem entity_dimensions_monotone (e : Entity) (a : Attribute) :
    (getEntityDimensions e).2 ≤ (getEntityDimensions (appendAttribute e a)).2 ∧
    ((∀ b ∈ e.attributes,
        (attrDisplayText b).length < (attrDisplayText a).length) →
      (getEntityDimensions e).1 ≤ (getEntityDimensions (appendAttribute e a)).1) := by
  constructor
  · simp only [getEntityDimensions, appendAttribute, List.length_append,
      List.length_cons, List.length_nil, HEADER_HEIGHT, ROW_HEIGHT, PADDING]
    apply max_le_max le_rfl
    push_cast
    linarith
  · intro _
    simp only [getEntityDimensions, appendAttribute, List.foldl_append,
      List.foldl_cons, List.foldl_nil]
    apply max_le_max _ le_rfl
    exact max_le_max le_rfl (le_max_left _ _)

/-- Witness for C8: a concrete entity and a strictly longer new attribute. -/
theorem entity_dimensions_monotone_witness :
    (∀ b ∈ entWitC8.attributes,
      (attrDisplayText b).length < (attrDisplayText attrLong).length) ∧
    (getEntityDimensions entWitC8).1 ≤
      (getEntityDimensions (appendAttribute entWitC8 attrLong)).1 :=
  ⟨by decide, (entity_dimensions_monotone entWitC8 attrLong).2 (by decide)⟩

/-- Helper: every association surviving the deletion cascade has no
connection to the deleted entity. -/
theorem deleteAssocs_clean (id : String) (prev : List Association) :
    ∀ a ∈ deleteEntityFromAssociations id prev,
      ∀ c ∈ a.connections, c.entityId ≠ id := by
  induction prev with
  | nil => simp [deleteEntityFromAssociations]
  | cons hd tl ih =>
    intro a ha
    simp only [deleteEntityFromAssociations] at ha
    by_cases hconn : hd.connections.any (fun c => c.entityId == id) = true
    · rw [if_pos hconn] at ha
      by_cases hlen : 2 < hd.connections.length
      · rw [if_pos hlen] at ha
        rcases List.mem_cons.mp ha with rfl | ha2
        · intro c hc
          simp only [List.mem_filter, Bool.not_eq_true', beq_eq_false_iff_ne] at hc
          exact hc.2
        · exact ih a ha2
      · rw [if_neg hlen] at ha
        exact ih a ha
    · rw [if_neg hconn] at ha
      rcases List.mem_cons.mp ha with rfl | ha2
      · intro c hc hcontra
        rw [List.any_eq_true] at hconn
        exact hconn ⟨c, hc, by simp [hcontra]⟩
      · exact ih a ha2

/-- Helper: a referenced association with more than two connections survives
the deletion cascade with its connections filtered. -/
theorem deleteAssocs_keep (id : String) (prev : List Association)
    (a : Association) (ha : a ∈ prev)
    (href : a.connections.any (fun c => c.entityId == id) = true)
    (hlen : 2 < a.connections.length) :
    { a with connections := a.connections.filter (fun c => !(c.entityId == id)) }
      ∈ deleteEntityFromAssociations id prev := by
  induction prev with
  | nil => cases ha
  | cons hd tl ih =>
    simp only [deleteEntityFromAssociations]
    rcases List.mem_cons.mp ha with rfl | ha2
    · rw [if_pos href, if_pos hlen]
      exact List.mem_cons_self _ _
    · have hmem := ih ha2
      by_cases hconn : hd.connections.any (fun c => c.entityId == id) = true
      · rw [if_pos hconn]
        by_cases hlen2 : 2 < hd.connections.length
        · rw [if_pos hlen2]
          exact List.mem_cons_of_mem _ hmem
        · rw [if_neg hlen2]
          exact hmem
      · rw [if_neg hconn]
        exact List.mem_cons_of_mem _ hmem

/-- C10: after deleting entity `id`, no remaining association references it;
associations with more than two connections that referenced it survive with
exactly their other connections; associations with two or fewer connections
that referenced it are removed entirely. -/
theorem delete_entity_cascade (id : String) (prev : List Association) :
    (∀ a ∈ deleteEntityFromAssociations id prev,
      ∀ c ∈ a.connections, c.entityId ≠ id) ∧
    (∀ a ∈ prev, (∃ c ∈ a.connections, c.entityId = id) →
      2 < a.connections.length →
      { a with connections :=
          a.connections.filter (fun c => !(c.entityId == id)) }
        ∈ deleteEntityFromAssociations id prev) ∧
    (∀ a ∈ prev, (∃ c ∈ a.connections, c.entityId = id) →
      a.connections.length ≤ 2 →
      a ∉ deleteEntityFromAssociations id prev) := by
  refine ⟨deleteAssocs_clean id prev, ?_, ?_⟩
  · intro a ha href hlen
    apply deleteAssocs_keep id prev a ha _ hlen
    rw [List.any_eq_true]
    obtain ⟨c, hc, hcid⟩ := href
    exact ⟨c, hc, by simp [hcid]⟩
  · intro a _ href _ hmem
    obtain ⟨c, hc, hcid⟩ := href
    exact deleteAssocs_clean id prev a hmem c hc hcid

/-- Helper: a successful entity lookup is unchanged by appending another
entity to the entity list. -/
theorem findEntity_append (es : List Entity) (eNew : Entity) (eid : String)
    (h : (findEntity es eid).isSome) :
    findEntity (es ++ [eNew]) eid = findEntity es eid := by
  unfold findEntity at h ⊢
  rw [List.find?_append]
  cases hfind : es.find? (fun e => e.id == eid) with
  | none => rw [hfind] at h; cases h
  | some e => rfl

/-- Helper: a found entity carries the looked-up id. -/
theorem findEntity_id (es : List Entity) (eid : String) (e : Entity)
    (h : findEntity es eid = some e) : e.id = eid := by
  have := List.find?_some h
  simpa using this

/-- C1 (amended): in the `renderConnection` variant with early
self-reference detection, a binary association whose two connections
resolve to the same entity is always routed to the self-referencing loop
mode and never to the locked straight-line mode, regardless of
`isLabelMovable`; the older `DiagramCanvas.tsx` variant has no
self-referencing mode and classifies such an association with a locked
label as a locked binary straight line. -/
theorem selfref_mode_selection (es : List Entity) (assocs : List Association)
    (a : Association) (c0 c1 : Connection) (e : Entity)
    (hconns : a.connections = [c0, c1])
    (hsame : c0.entityId = c1.entityId)
    (hfind : findEntity es c0.entityId = some e) :
    (∃ g, renderConnection es assocs a 0 = some (.selfRefLoop g)) ∧
    (∀ k g, renderConnection es assocs a k ≠ some (.lockedLine g)) ∧
    (a.isLabelMovable = false → renderModeLegacy es a 0 = .lockedLine) := by
  have hfind1 : findEntity es c1.entityId = some e := by rw [← hsame]; exact hfind
  refine ⟨⟨selfRefGeometry assocs a e, ?_⟩, ?_, ?_⟩
  · simp only [renderConnection, hconns, List.getElem?_cons_zero, hfind, hfind1]
    simp
  · intro k g
    match k with
    | 0 =>
      simp only [renderConnection, hconns, List.getElem?_cons_zero, hfind, hfind1]
      simp
    | 1 =>
      simp only [renderConnection, hconns, List.getElem?_cons_succ,
        List.getElem?_cons_zero, hfind, hfind1]
      simp
    | (n + 2) =>
      simp only [renderConnection, hconns, List.getElem?_cons_succ,
        List.getElem?_nil]
      simp
  · intro hmov
    simp only [renderModeLegacy, hconns, List.getElem?_cons_zero, hfind,
      hfind1, hmov]
    simp

/-- C1 counterexample: a locked self-loop (both connections reference the
live entity `"9"`) is classified by the `DiagramCanvas.tsx` resolver as a
locked binary straight line, not as a self-referencing loop. -/
theorem selfref_legacy_locked :
    (∀ c ∈ assocSelf.connections, c.entityId = entSelf.id) ∧
    assocSelf.connections.length = 2 ∧
    assocSelf.isLabelMovable = false ∧
    renderModeLegacy [entSelf] assocSelf 0 = .lockedLine :=
  ⟨by decide, rfl, rfl, rfl⟩

/-- Witness for C1's amended theorem at a concrete self-loop. -/
theorem selfref_mode_selection_witness :
    (assocSelf.connections = [⟨"s1", "9", "1"⟩, ⟨"s2", "9", "0..*"⟩] ∧
      findEntity [entSelf] "9" = some entSelf) ∧
    (∃ g, renderConnection [entSelf] [assocSelf] assocSelf 0 =
      some (.selfRefLoop g)) :=
  ⟨⟨rfl, rfl⟩,
   (selfref_mode_selection [entSelf] [assocSelf] assocSelf
      ⟨"s1", "9", "1"⟩ ⟨"s2", "9", "0..*"⟩ entSelf rfl rfl rfl).1⟩

/-- Helper: appending an entity with the previously missing id makes the
lookup resolve to it. -/
theorem findEntity_append_new (es : List Entity) (eNew : Entity)
    (eid : String) (hmiss : findEntity es eid = none) (hE : eNew.id = eid) :
    findEntity (es ++ [eNew]) eid = some eNew := by
  unfold findEntity at hmiss ⊢
  rw [List.find?_append, hmiss]
  simp [hE]

/-- Helper: any list of length at least three starts with three cons
cells. -/
theorem length_ge_three_shape {α : Type} (l : List α) (h : 3 ≤ l.length) :
    ∃ x y z t, l = x :: y :: z :: t := by
  match l with
  | x :: y :: z :: t => exact ⟨x, y, z, t, rfl⟩
  | [] => simp at h
  | [x] => simp at h
  | [x, y] => simp at h

/-- Helper: a connection with a non-binary association always renders as a
plain spoke to its resolved entity. -/
theorem renderConnection_shape_spoke (es : List Entity)
    (assocs : List Association) (a : Association) (idx : ℕ) (c : Connection)
    (e : Entity) (hc : a.connections[idx]? = some c)
    (he : findEntity es c.entityId = some e)
    (hlen : a.connections.length ≠ 2) :
    renderConnection es assocs a idx = some (.spokeLine (spokeGeometry a e)) := by
  rcases hcs : a.connections with _ | ⟨x, _ | ⟨y, _ | ⟨z, t⟩⟩⟩
  · rw [hcs] at hc; simp at hc
  · rw [hcs] at hc
    simp only [renderConnection, hcs, hc, he, renderBinaryOrSpoke]
  · rw [hcs] at hlen; simp at hlen
  · rw [hcs] at hc
    simp only [renderConnection, hcs, hc, he, renderBinaryOrSpoke]

/-- Helper: a binary association with a movable label renders a connection
as a plain spoke whenever its two legs do not resolve to one single entity
(one missing, or two entities with different ids). -/
theorem renderConnection_binary_spoke (es : List Entity)
    (assocs : List Association) (a : Association) (idx : ℕ) (c : Connection)
    (e : Entity) (d0 d1 : Connection)
    (hcs : a.connections = [d0, d1])
    (hc : a.connections[idx]? = some c)
    (he : findEntity es c.entityId = some e)
    (hmov : a.isLabelMovable = true)
    (hsel : ∀ e0 e1, findEntity es d0.entityId = some e0 →
      findEntity es d1.entityId = some e1 → e0.id ≠ e1.id) :
    renderConnection es assocs a idx = some (.spokeLine (spokeGeometry a e)) := by
  rw [hcs] at hc
  cases h0 : findEntity es d0.entityId with
  | none =>
    simp only [renderConnection, hcs, hc, he, h0, renderBinaryOrSpoke, hmov]
    simp
  | some e0 =>
    cases h1 : findEntity es d1.entityId with
    | none =>
      simp only [renderConnection, hcs, hc, he, h0, h1, renderBinaryOrSpoke, hmov]
      simp
    | some e1 =>
      have hne := hsel e0 e1 h0 h1
      simp only [renderConnection, hcs, hc, he, h0, h1, renderBinaryOrSpoke, hmov]
      rw [if_neg hne]
      simp [renderBinaryOrSpoke, hcs, hmov, hc, he]

/-- Helper: a locked binary association with an unresolved leg renders
nothing at any connection index. -/
theorem renderConnection_binary_locked_none (es : List Entity)
    (assocs : List Association) (a : Association) (idx : ℕ) (d0 d1 : Connection)
    (hcs : a.connections = [d0, d1])
    (hmov : a.isLabelMovable = false)
    (hnone : findEntity es d0.entityId = none ∨ findEntity es d1.entityId = none) :
    renderConnection es assocs a idx = none := by
  cases hc : a.connections[idx]? with
  | none => simp only [renderConnection, hc]
  | some ci =>
    rw [hcs] at hc
    cases hei : findEntity es ci.entityId with
    | none => simp only [renderConnection, hcs, hc, hei]
    | some ei =>
      cases h0 : findEntity es d0.entityId with
      | none =>
        cases h1 : findEntity es d1.entityId with
        | none =>
          simp only [renderConnection, hcs, hc, hei, h0, h1,
            renderBinaryOrSpoke, hmov]
          simp
        | some e1 =>
          simp only [renderConnection, hcs, hc, hei, h0, h1,
            renderBinaryOrSpoke, hmov]
          simp
      | some e0 =>
        cases h1 : findEntity es d1.entityId with
        | none =>
          simp only [renderConnection, hcs, hc, hei, h0, h1,
            renderBinaryOrSpoke, hmov]
          simp
        | some e1 =>
          rcases hnone with h | h
          · rw [h] at h0; cases h0
          · rw [h] at h1; cases h1

/-- C9 (amended): a connection whose `entityId` resolves to no entity
renders nothing; for a locked binary association a dangling leg suppresses
the entire line (every connection of it renders nothing); for associations
rendered per connection (arity ≥ 3, or binary with a movable label) the
other connections are unaffected: restoring the missing entity does not
change their output. -/
theorem dangling_connection_handling (es : List Entity)
    (assocs : List Association) (a : Association) (j k : ℕ)
    (cj ck : Connection) (eNew : Entity)
    (hj : a.connections[j]? = some cj)
    (hk : a.connections[k]? = some ck)
    (hjfind : (findEntity es cj.entityId).isSome)
    (hkfind : findEntity es ck.entityId = none)
    (hE : eNew.id = ck.entityId) :
    renderConnection es assocs a k = none ∧
    (a.connections.length = 2 → a.isLabelMovable = false →
      ∀ i, renderConnection es assocs a i = none) ∧
    (3 ≤ a.connections.length ∨ a.isLabelMovable = true →
      renderConnection (es ++ [eNew]) assocs a j =
        renderConnection es assocs a j) := by
  obtain ⟨ej, hej⟩ := Option.isSome_iff_exists.mp hjfind
  have hejApp : findEntity (es ++ [eNew]) cj.entityId = some ej := by
    rw [findEntity_append es eNew _ hjfind]; exact hej
  have hckApp : findEntity (es ++ [eNew]) ck.entityId = some eNew :=
    findEntity_append_new es eNew _ hkfind hE
  have hne : ej.id ≠ eNew.id := by
    intro hEq
    rw [findEntity_id es _ _ hej, hE] at hEq
    rw [← hEq, hej] at hkfind
    cases hkfind
  refine ⟨?_, ?_, ?_⟩
  · simp only [renderConnection, hk, hkfind]
  · intro h2 hmov i
    obtain ⟨d0, d1, hcs⟩ := List.length_eq_two.mp h2
    have hk2 : k < 2 := by
      by_contra hge
      have hnone : a.connections[k]? = none := by
        rw [hcs]
        exact List.getElem?_eq_none (by simp; omega)
      rw [hnone] at hk; cases hk
    apply renderConnection_binary_locked_none es assocs a i d0 d1 hcs hmov
    interval_cases k
    · left
      rw [hcs, List.getElem?_cons_zero] at hk
      rw [Option.some_inj.mp hk]; exact hkfind
    · right
      rw [hcs, List.getElem?_cons_succ, List.getElem?_cons_zero] at hk
      rw [Option.some_inj.mp hk]; exact hkfind
  · intro harity
    rcases harity with h3 | hmov
    · have hlen : a.connections.length ≠ 2 := by omega
      rw [renderConnection_shape_spoke (es ++ [eNew]) assocs a j cj ej hj hejApp hlen,
        renderConnection_shape_spoke es assocs a j cj ej hj hej hlen]
    · by_cases h2 : a.connections.length = 2
      · obtain ⟨d0, d1, hcs⟩ := List.length_eq_two.mp h2
        have hk2 : k < 2 := by
          by_contra hge
          have hnone : a.connections[k]? = none := by
            rw [hcs]
            exact List.getElem?_eq_none (by simp; omega)
          rw [hnone] at hk; cases hk
        have hj2 : j < 2 := by
          by_contra hge
          have hnone : a.connections[j]? = none := by
            rw [hcs]
            exact List.getElem?_eq_none (by simp; omega)
          rw [hnone] at hj; cases hj
        have hjk : j ≠ k := by
          intro hEq
          rw [hEq, hk] at hj
          have hcc : ck = cj := Option.some_inj.mp hj
          rw [← hcc, hkfind] at hej
          cases hej
        interval_cases j <;> interval_cases k
        · exact absurd rfl hjk
        · -- j = 0, k = 1
          have hd0 : d0 = cj := by
            have h := hj
            rw [hcs, List.getElem?_cons_zero] at h
            exact Option.some_inj.mp h
          have hd1 : d1 = ck := by
            have h := hk
            rw [hcs, List.getElem?_cons_succ, List.getElem?_cons_zero] at h
            exact Option.some_inj.mp h
          rw [hd0, hd1] at hcs
          have hselA : ∀ e0 e1,
              findEntity (es ++ [eNew]) cj.entityId = some e0 →
              findEntity (es ++ [eNew]) ck.entityId = some e1 → e0.id ≠ e1.id := by
            intro e0 e1 h0 h1
            rw [hejApp] at h0
            rw [hckApp] at h1
            rw [← Option.some_inj.mp h0, ← Option.some_inj.mp h1]
            exact hne
          have hselB : ∀ e0 e1,
              findEntity es cj.entityId = some e0 →
              findEntity es ck.entityId = some e1 → e0.id ≠ e1.id := by
            intro e0 e1 _ h1
            rw [hkfind] at h1
            cases h1
          rw [renderConnection_binary_spoke (es ++ [eNew]) assocs a 0 cj ej cj ck
              hcs hj hejApp hmov hselA,
            renderConnection_binary_spoke es assocs a 0 cj ej cj ck
              hcs hj hej hmov hselB]
        · -- j = 1, k = 0
          have hd1 : d1 = cj := by
            have h := hj
            rw [hcs, List.getElem?_cons_succ, List.getElem?_cons_zero] at h
            exact Option.some_inj.mp h
          have hd0 : d0 = ck := by
            have h := hk
            rw [hcs, List.getElem?_cons_zero] at h
            exact Option.some_inj.mp h
          rw [hd0, hd1] at hcs
          have hselC : ∀ e0 e1,
              findEntity (es ++ [eNew]) ck.entityId = some e0 →
              findEntity (es ++ [eNew]) cj.entityId = some e1 → e0.id ≠ e1.id := by
            intro e0 e1 h0 h1
            rw [hckApp] at h0
            rw [hejApp] at h1
            rw [← Option.some_inj.mp h0, ← Option.some_inj.mp h1]
            exact hne.symm
          have hselD : ∀ e0 e1,
              findEntity es ck.entityId = some e0 →
              findEntity es cj.entityId = some e1 → e0.id ≠ e1.id := by
            intro e0 e1 h0 _
            rw [hkfind] at h0
            cases h0
          rw [renderConnection_binary_spoke (es ++ [eNew]) assocs a 1 cj ej ck cj
              hcs hj hejApp hmov hselC,
            renderConnection_binary_spoke es assocs a 1 cj ej ck cj
              hcs hj hej hmov hselD]
        · exact absurd rfl hjk
      · rw [renderConnection_shape_spoke (es ++ [eNew]) assocs a j cj ej hj hejApp h2,
          renderConnection_shape_spoke es assocs a j cj ej hj hej h2]

/-- C9 counterexample: in a locked binary association, connection 0
resolves (entity `"1"` is live) while connection 1 dangles; connection 0
then renders nothing, although it renders the full locked line when entity
`"404"` is present — so the dangling connection does affect the other
connection of the same association. -/
theorem dangling_affects_sibling :
    findEntity [entA] "1" = some entA ∧
    findEntity [entA] "404" = none ∧
    renderConnection [entA] [assocDangling] assocDangling 0 = none ∧
    (renderConnection [entA, entDangling] [assocDangling] assocDangling 0).isSome
      = true :=
  ⟨rfl, rfl, rfl, rfl⟩

/-- Witness for C9's amended theorem: entity `"2"` of the ternary
association is missing, so its middle leg renders nothing. -/
theorem dangling_connection_handling_witness :
    (delTernary.connections[0]? = some ⟨"u1", "1", "1"⟩ ∧
      delTernary.connections[1]? = some ⟨"u2", "2", "1"⟩ ∧
      (findEntity [entA] "1").isSome = true ∧
      findEntity [entA] "2" = none) ∧
    renderConnection [entA] [delTernary] delTernary 1 = none :=
  ⟨⟨rfl, rfl, rfl, rfl⟩,
   (dangling_connection_handling [entA] [delTernary] delTernary 0 1
      ⟨"u1", "1", "1"⟩ ⟨"u2", "2", "1"⟩ ⟨"2", "B2", 300, 0, 160, 100, []⟩
      rfl rfl rfl rfl rfl).1⟩

/-- Rendered dimensions of the sample entity `A`. -/
theorem dims_entA : getEntityDimensions entA = (160, 100) := by
  have hA : measureTextWidth "A" = 8 := by
    have hlen : ("A" : String).length = 1 := rfl
    rw [measureTextWidth, hlen]
    norm_num
  simp only [getEntityDimensions, entA, hA, HEADER_HEIGHT, ROW_HEIGHT, PADDING,
    List.foldl_nil, List.length_nil]
  norm_num [max_def]

/-- Rendered dimensions of the sample entity `B`. -/
theorem dims_entB : getEntityDimensions entB = (160, 100) := by
  have hB : measureTextWidth "B" = 8 := by
    have hlen : ("B" : String).length = 1 := rfl
    rw [measureTextWidth, hlen]
    norm_num
  simp only [getEntityDimensions, entB, hB, HEADER_HEIGHT, ROW_HEIGHT, PADDING,
    List.foldl_nil, List.length_nil]
  norm_num [max_def]

/-- Center of the sample entity `A`. -/
theorem center_entA : getCenter entA = ⟨80, 50⟩ := by
  simp only [getCenter, dims_entA]
  simp only [entA, Point.mk.injEq]
  norm_num

/-- Center of the sample entity `B`. -/
theorem center_entB : getCenter entB = ⟨480, 50⟩ := by
  simp only [getCenter, dims_entB]
  simp only [entB, Point.mk.injEq]
  norm_num

/-- C4 (amended): `getIntersection` ignores its first argument and works
from the rectangle's own center, so it returns the target unchanged
exactly in the guarded case where the target is the rectangle's computed
center. -/
theorem getIntersection_center_degenerate (q p : Point) (rect : Entity)
    (hp : p = getCenter rect) : getIntersection q p rect = p := by
  subst hp
  simp [getIntersection, getCenter]

/-- C4 counterexample: with `p = (300, 50)` (not the center of `entA`),
`getIntersection p p entA` returns the border point `(160, 50)`, not `p`
unchanged. -/
theorem getIntersection_not_input_point :
    getIntersection ⟨300, 50⟩ ⟨300, 50⟩ entA ≠ ⟨300, 50⟩ := by
  have hval : getIntersection ⟨300, 50⟩ ⟨300, 50⟩ entA = ⟨160, 50⟩ := by
    simp only [getIntersection, slabParam, dims_entA]
    simp only [entA, Point.mk.injEq]
    norm_num [abs_of_pos, abs_of_nonneg]
  rw [hval]
  simp only [ne_eq, Point.mk.injEq, not_and]
  intro h
  norm_num at h

/-- Witness for C4's amended theorem at the concrete rectangle `entA`. -/
theorem getIntersection_center_degenerate_witness :
    getIntersection ⟨0, 0⟩ (getCenter entA) entA = getCenter entA :=
  getIntersection_center_degenerate ⟨0, 0⟩ (getCenter entA) entA rfl

/-- Square root value used by the scenario's label arithmetic. -/
theorem sqrt_57600 : Real.sqrt 57600 = 240 := by
  rw [show (57600 : ℝ) = 240 ^ 2 by norm_num]
  exact Real.sqrt_sq (by norm_num)

/-- The locked geometry computed for the two-entity scenario. -/
theorem lockedGeometry_scenario :
    lockedGeometry [assocAB] assocAB entA entB =
      ⟨0, ⟨160, 50⟩, ⟨400, 50⟩, ⟨280, 50⟩, ⟨175, 50⟩, ⟨385, 50⟩⟩ := by
  have hfilter :
      List.filter (sameEntityPairPred (pairKeyOf entA.id entB.id)) [assocAB]
        = [assocAB] := by
    simp [sameEntityPairPred, assocAB, entA, entB]
  have hidx : List.findIdx? (fun b => b.id == assocAB.id) [assocAB] = some 0 := rfl
  simp only [lockedGeometry, offsetAmountOf, assocRank, sameEntityPairAssocsOf,
    perpXOf, perpYOf, lenOf, hfilter, hidx, center_entA, center_entB,
    getIntersection, slabParam, getLabelPosition, dims_entA, dims_entB,
    List.length_cons, List.length_nil, Nat.cast_zero, Nat.cast_one]
  simp only [entA, entB, LockedGeom.mk.injEq, Point.mk.injEq]
  norm_num [sqrt_57600, abs_of_pos, abs_of_nonneg]

/-- C2: for the scenario of entities `A(id=1)` at the origin and `B(id=2)`
at `x=400` joined by one locked binary association, the computed geometry
is the straight line from `(160, 50)` to `(400, 50)`, label at `(280, 50)`
and cardinality markers at `(175, 50)` and `(385, 50)`. -/
theorem locked_binary_scenario :
    renderConnection [entA, entB] [assocAB] assocAB 0 =
      some (.lockedLine ⟨0, ⟨160, 50⟩, ⟨400, 50⟩, ⟨280, 50⟩, ⟨175, 50⟩, ⟨385, 50⟩⟩) := by
  have hstep : renderConnection [entA, entB] [assocAB] assocAB 0 =
      some (.lockedLine (lockedGeometry [assocAB] assocAB entA entB)) := rfl
  rw [hstep, lockedGeometry_scenario]

/-- C7 (amended): for arity 3 the shape generator returns the triangle with
hard-coded coefficients — top vertex `(x, y - 48)` and base vertices
`(x ± 48·0.866, y + 48·0.5)`, i.e. `(x ± 41.568, y + 24)`.  The vertical
coordinates agree with the trigonometric formula (`48·sin 30° = 24`), but
`0.866` only approximates `cos 30°`. -/
theorem triangle_shape (a : Association) (h3 : a.connections.length = 3) :
    getAssociationShapePoints a =
      [⟨a.x, a.y - 48⟩, ⟨a.x + 41.568, a.y + 24⟩, ⟨a.x - 41.568, a.y + 24⟩] := by
  simp only [getAssociationShapePoints, h3]
  norm_num

/-- C7 counterexample: vertex 1 of the arity-3 shape is not at
`center + 48·(cos 30°, sin 30°)`: its x-coordinate is `48·0.866 = 41.568`,
while `48·cos 30° = 24·√3` has square `1728 ≠ 41.568²`. -/
theorem triangle_not_trig :
    getAssociationShapePoints assocTri ≠
      [⟨assocTri.x, assocTri.y - 48⟩,
       ⟨assocTri.x + 48 * Real.cos (Real.pi / 6),
        assocTri.y + 48 * Real.sin (Real.pi / 6)⟩,
       ⟨assocTri.x - 48 * Real.cos (Real.pi / 6),
        assocTri.y + 48 * Real.sin (Real.pi / 6)⟩] := by
  intro h
  have h48 : getAssociationShapePoints assocTri =
      [⟨0, -48⟩, ⟨48 * 0.866, 48 * 0.5⟩, ⟨-(48 * 0.866), 48 * 0.5⟩] := by
    simp only [getAssociationShapePoints, assocTri]
    norm_num
  rw [h48] at h
  simp only [assocTri, List.cons.injEq, Point.mk.injEq] at h
  have hx : (48 : ℝ) * 0.866 = 0 + 48 * Real.cos (Real.pi / 6) := h.2.1.1
  rw [Real.cos_pi_div_six] at hx
  have h3 : (Real.sqrt 3) ^ 2 = 3 := Real.sq_sqrt (by norm_num)
  have hcontra : (1727.898624 : ℝ) = 1728 := by
    calc (1727.898624 : ℝ) = (48 * 0.866) ^ 2 := by norm_num
    _ = (0 + 48 * (Real.sqrt 3 / 2)) ^ 2 := by rw [hx]
    _ = 576 * (Real.sqrt 3 ^ 2) := by ring
    _ = 576 * 3 := by rw [h3]
    _ = 1728 := by norm_num
  norm_num at hcontra

/-- Witness for C7's amended theorem at the concrete ternary association. -/
theorem triangle_shape_witness :
    assocTri.connections.length = 3 ∧
    getAssociationShapePoints assocTri =
      [⟨assocTri.x, assocTri.y - 48⟩, ⟨assocTri.x + 41.568, assocTri.y + 24⟩,
       ⟨assocTri.x - 41.568, assocTri.y + 24⟩] :=
  ⟨rfl, triangle_shape assocTri rfl⟩

/-- Helper: a rejected edge leaves the accumulator unchanged. -/
theorem polyStep_none (c t : Point) (pts : List Point)
    (acc : Point × Option ℝ) (i : ℕ) (h : edgeInter c t pts i = none) :
    polyStep c t pts acc i = acc := by
  simp [polyStep, h]

/-- Helper: folding over indices whose edges are all rejected changes
nothing. -/
theorem polyFold_id (c t : Point) (pts : List Point) (l : List ℕ) :
    ∀ acc : Point × Option ℝ, (∀ i ∈ l, edgeInter c t pts i = none) →
      l.foldl (polyStep c t pts) acc = acc := by
  induction l with
  | nil => intro acc _; rfl
  | cons i l ih =>
    intro acc h
    rw [List.foldl_cons, polyStep_none c t pts acc i (h i (List.mem_cons_self i l))]
    exact ih acc (fun j hj => h j (List.mem_cons_of_mem i hj))

/-- Helper: once the tracked minimum is set it never becomes unset. -/
theorem polyFold_some (c t : Point) (pts : List Point) (l : List ℕ) :
    ∀ acc : Point × Option ℝ, acc.2 ≠ none →
      (l.foldl (polyStep c t pts) acc).2 ≠ none := by
  induction l with
  | nil => exact fun acc h => h
  | cons i l ih =>
    intro acc h
    rw [List.foldl_cons]
    apply ih
    cases he : edgeInter c t pts i with
    | none => rw [polyStep_none c t pts acc i he]; exact h
    | some p =>
      cases h2 : acc.2 with
      | none => exact absurd h2 h
      | some m =>
        by_cases hdlt : ptDist c p < m <;> simp [polyStep, he, h2, hdlt]

/-- Helper: the tracked minimum never increases along the fold. -/
theorem polyFold_min_le (c t : Point) (pts : List Point) (l : List ℕ) :
    ∀ (acc : Point × Option ℝ) (d0 : ℝ), acc.2 = some d0 →
      ∀ d, (l.foldl (polyStep c t pts) acc).2 = some d → d ≤ d0 := by
  induction l with
  | nil =>
    intro acc d0 h0 d hd
    rw [List.foldl_nil, h0] at hd
    exact le_of_eq (Option.some_inj.mp hd).symm
  | cons i l ih =>
    intro acc d0 h0 d hd
    rw [List.foldl_cons] at hd
    cases he : edgeInter c t pts i with
    | none =>
      rw [polyStep_none c t pts acc i he] at hd
      exact ih acc d0 h0 d hd
    | some p =>
      by_cases hdlt : ptDist c p < d0
      · have hstep : polyStep c t pts acc i = (p, some (ptDist c p)) := by
          simp [polyStep, he, h0, hdlt]
        rw [hstep] at hd
        have := ih (p, some (ptDist c p)) (ptDist c p) rfl d hd
        linarith
      · have hstep : polyStep c t pts acc i = acc := by
          simp [polyStep, he, h0, hdlt]
        rw [hstep] at hd
        exact ih acc d0 h0 d hd

/-- Helper: whenever the fold ends with a tracked minimum, that minimum is
the distance to the kept point, and the kept point either satisfied the
initial invariant or is an accepted intersection of a processed edge. -/
theorem polyFold_prov (c t : Point) (pts : List Point) (l : List ℕ) :
    ∀ (acc : Point × Option ℝ) (P : Point → Prop),
      (∀ d, acc.2 = some d → d = ptDist c acc.1 ∧ P acc.1) →
      ∀ d, (l.foldl (polyStep c t pts) acc).2 = some d →
        d = ptDist c (l.foldl (polyStep c t pts) acc).1 ∧
          (P (l.foldl (polyStep c t pts) acc).1 ∨
            ∃ i ∈ l, edgeInter c t pts i =
              some (l.foldl (polyStep c t pts) acc).1) := by
  induction l with
  | nil =>
    intro acc P hP d hd
    rw [List.foldl_nil] at hd ⊢
    exact ⟨(hP d hd).1, Or.inl (hP d hd).2⟩
  | cons i l ih =>
    intro acc P hP d hd
    rw [List.foldl_cons] at hd ⊢
    have hstep : ∀ d2, (polyStep c t pts acc i).2 = some d2 →
        d2 = ptDist c (polyStep c t pts acc i).1 ∧
          (P (polyStep c t pts acc i).1 ∨
            edgeInter c t pts i = some (polyStep c t pts acc i).1) := by
      intro d2 hd2
      cases he : edgeInter c t pts i with
      | none =>
        rw [polyStep_none c t pts acc i he] at hd2 ⊢
        exact ⟨(hP d2 hd2).1, Or.inl (hP d2 hd2).2⟩
      | some p =>
        cases h2 : acc.2 with
        | none =>
          have hs : polyStep c t pts acc i = (p, some (ptDist c p)) := by
            simp [polyStep, he, h2]
          rw [hs] at hd2 ⊢
          refine ⟨(Option.some_inj.mp hd2).symm, Or.inr ?_⟩
          simpa using he
        | some m =>
          by_cases hdlt : ptDist c p < m
          · have hs : polyStep c t pts acc i = (p, some (ptDist c p)) := by
              simp [polyStep, he, h2, hdlt]
            rw [hs] at hd2 ⊢
            refine ⟨(Option.some_inj.mp hd2).symm, Or.inr ?_⟩
            simpa using he
          · have hs : polyStep c t pts acc i = acc := by
              simp [polyStep, he, h2, hdlt]
            rw [hs] at hd2 ⊢
            exact ⟨(hP d2 hd2).1, Or.inl (hP d2 hd2).2⟩
    have hmain := ih (polyStep c t pts acc i)
      (fun p => P p ∨ edgeInter c t pts i = some p) hstep d hd
    refine ⟨hmain.1, ?_⟩
    rcases hmain.2 with hP2 | ⟨j, hj, hacc⟩
    · rcases hP2 with hp | hi
      · exact Or.inl hp
      · exact Or.inr ⟨i, List.mem_cons_self i l, hi⟩
    · exact Or.inr ⟨j, List.mem_cons_of_mem i hj, hacc⟩

/-- Helper: the final tracked minimum is at most the distance of every
accepted intersection among the processed edges. -/
theorem polyFold_min_all (c t : Point) (pts : List Point) (l : List ℕ) :
    ∀ (acc : Point × Option ℝ) (j : ℕ) (q : Point), j ∈ l →
      edgeInter c t pts j = some q →
      ∀ d, (l.foldl (polyStep c t pts) acc).2 = some d → d ≤ ptDist c q := by
  induction l with
  | nil => intro acc j q hj; cases hj
  | cons i l ih =>
    intro acc j q hj he d hd
    rw [List.foldl_cons] at hd
    rcases List.mem_cons.mp hj with rfl | hjl
    · cases h2 : acc.2 with
      | none =>
        have hs : polyStep c t pts acc j = (q, some (ptDist c q)) := by
          simp [polyStep, he, h2]
        rw [hs] at hd
        exact polyFold_min_le c t pts l _ _ rfl d hd
      | some m =>
        by_cases hdlt : ptDist c q < m
        · have hs : polyStep c t pts acc j = (q, some (ptDist c q)) := by
            simp [polyStep, he, h2, hdlt]
          rw [hs] at hd
          exact polyFold_min_le c t pts l _ _ rfl d hd
        · have hs : polyStep c t pts acc j = acc := by
            simp [polyStep, he, h2, hdlt]
          rw [hs] at hd
          have hdm := polyFold_min_le c t pts l acc m h2 d hd
          push_neg at hdlt
          linarith
    · exact ih (polyStep c t pts acc i) j q hjl he d hd

/-- Helper: an accepted edge guarantees the fold ends with a tracked
minimum. -/
theorem polyFold_exists_some (c t : Point) (pts : List Point) (l : List ℕ) :
    ∀ (acc : Point × Option ℝ) (j : ℕ) (q : Point), j ∈ l →
      edgeInter c t pts j = some q →
      (l.foldl (polyStep c t pts) acc).2 ≠ none := by
  induction l with
  | nil => intro acc j q hj; cases hj
  | cons i l ih =>
    intro acc j q hj he
    rw [List.foldl_cons]
    rcases List.mem_cons.mp hj with rfl | hjl
    · apply polyFold_some
      cases h2 : acc.2 with
      | none => simp [polyStep, he, h2]
      | some m => by_cases hdlt : ptDist c q < m <;> simp [polyStep, he, h2, hdlt]
    · exact ih _ j q hjl he

/-- Helper: the degenerate single-point polygon has no accepted edge 0
(the edge is a point, so the determinant vanishes). -/
theorem edgeInter_single (c t p : Point) : edgeInter c t [p] 0 = none := by
  simp [edgeInter, polyEdge, getLineIntersection, sub_self]

/-- C5: `getPolygonIntersection` returns, among the accepted determinant
intersections of the polygon's edges, one that is accepted and closest to
`center`; when no edge yields an accepted intersection it returns
`center`. -/
theorem polygon_intersection_closest (center target : Point)
    (points : List Point) :
    ((∀ i < points.length, edgeInter center target points i = none) →
      getPolygonIntersection center target points = center) ∧
    (∀ j < points.length, ∀ q, edgeInter center target points j = some q →
      (∃ i < points.length, edgeInter center target points i =
          some (getPolygonIntersection center target points)) ∧
      ptDist center (getPolygonIntersection center target points) ≤
        ptDist center q) := by
  by_cases hlt : points.length < 2
  · constructor
    · intro _
      simp [getPolygonIntersection, hlt]
    · intro j hj q he
      have h1 : points.length = 1 := by omega
      obtain ⟨p, hp⟩ := List.length_eq_one.mp h1
      have hj0 : j = 0 := by omega
      rw [hj0, hp, edgeInter_single] at he
      cases he
  · have hresult : getPolygonIntersection center target points =
        ((List.range points.length).foldl (polyStep center target points)
          (center, none)).1 := by
      rw [getPolygonIntersection, if_neg hlt]
    constructor
    · intro hall
      rw [hresult,
        polyFold_id center target points _ (center, none)
          (fun i hi => hall i (List.mem_range.mp hi))]
    · intro j hj q he
      have hsome : ((List.range points.length).foldl
          (polyStep center target points) (center, none)).2 ≠ none :=
        polyFold_exists_some center target points _ (center, none) j q
          (List.mem_range.mpr hj) he
      obtain ⟨d, hd⟩ := Option.ne_none_iff_exists'.mp hsome
      have hprov := polyFold_prov center target points _ (center, none)
        (fun _ => False) (by intro d0 h0; simp at h0) d hd
      have hmin := polyFold_min_all center target points _ (center, none) j q
        (List.mem_range.mpr hj) he d hd
      constructor
      · rcases hprov.2 with hF | ⟨i, hi, hacc⟩
        · cases hF
        · exact ⟨i, List.mem_range.mp hi, by rw [hresult]; exact hacc⟩
      · rw [hresult, ← hprov.1]
        exact hmin

/-- Witness for C5: edge 0 of the square intersects the ray at `(5, 0)`,
and the returned point is an accepted intersection at least as close. -/
theorem polygon_intersection_closest_witness :
    (0 < sqPts.length ∧
      edgeInter ⟨0, 0⟩ ⟨10, 0⟩ sqPts 0 = some ⟨5, 0⟩) ∧
    ((∃ i < sqPts.length, edgeInter ⟨0, 0⟩ ⟨10, 0⟩ sqPts i =
        some (getPolygonIntersection ⟨0, 0⟩ ⟨10, 0⟩ sqPts)) ∧
      ptDist ⟨0, 0⟩ (getPolygonIntersection ⟨0, 0⟩ ⟨10, 0⟩ sqPts) ≤
        ptDist ⟨0, 0⟩ ⟨5, 0⟩) :=
  ⟨⟨by norm_num [sqPts],
    by
      simp only [edgeInter, polyEdge, sqPts, getLineIntersection]
      norm_num⟩,
   (polygon_intersection_closest ⟨0, 0⟩ ⟨10, 0⟩ sqPts).2 0
     (by norm_num [sqPts]) ⟨5, 0⟩
     (by
       simp only [edgeInter, polyEdge, sqPts, getLineIntersection]
       norm_num)⟩

/-- Helper: the slab parameter is never negative. -/
theorem slabParam_nonneg (dx dy halfW halfH : ℝ) :
    0 ≤ slabParam dx dy halfW halfH := by
  simp only [slabParam]
  split
  · exact abs_nonneg _
  · split
    · exact abs_nonneg _
    · exact le_min (abs_nonneg _) (abs_nonneg _)

/-- Helper: `getIntersection` always lands on the ray from the rectangle's
center toward the target, at a nonnegative parameter. -/
theorem getIntersection_param (q tgt : Point) (rect : Entity) :
    ∃ s : ℝ, 0 ≤ s ∧
      getIntersection q tgt rect =
        ⟨(getCenter rect).x + s * (tgt.x - (getCenter rect).x),
         (getCenter rect).y + s * (tgt.y - (getCenter rect).y)⟩ := by
  simp only [getIntersection, getCenter]
  by_cases hg : tgt.x - (rect.x + (getEntityDimensions rect).1 / 2) = 0 ∧
      tgt.y - (rect.y + (getEntityDimensions rect).2 / 2) = 0
  · refine ⟨0, le_rfl, ?_⟩
    rw [if_pos hg]
    simp
  · refine ⟨slabParam (tgt.x - (rect.x + (getEntityDimensions rect).1 / 2))
      (tgt.y - (rect.y + (getEntityDimensions rect).2 / 2))
      ((getEntityDimensions rect).1 / 2) ((getEntityDimensions rect).2 / 2),
      slabParam_nonneg _ _ _ _, ?_⟩
    rw [if_neg hg]
    simp only [Point.mk.injEq]
    constructor <;> ring

/-- Helper: when the two centers coincide, both center deltas vanish. -/
theorem lenOf_zero_deltas (e1 e2 : Entity) (h : ¬ 0 < lenOf e1 e2) :
    (getCenter e2).x - (getCenter e1).x = 0 ∧
    (getCenter e2).y - (getCenter e1).y = 0 := by
  simp only [lenOf] at h
  have hs : Real.sqrt
      (((getCenter e2).x - (getCenter e1).x) * ((getCenter e2).x - (getCenter e1).x) +
        ((getCenter e2).y - (getCenter e1).y) * ((getCenter e2).y - (getCenter e1).y)) = 0 :=
    le_antisymm (not_lt.mp h) (Real.sqrt_nonneg _)
  have harg := Real.sqrt_eq_zero'.mp hs
  constructor
  · have h1 : ((getCenter e2).x - (getCenter e1).x) *
        ((getCenter e2).x - (getCenter e1).x) = 0 := by
      nlinarith [mul_self_nonneg ((getCenter e2).x - (getCenter e1).x),
        mul_self_nonneg ((getCenter e2).y - (getCenter e1).y)]
    exact mul_self_eq_zero.mp h1
  · have h1 : ((getCenter e2).y - (getCenter e1).y) *
        ((getCenter e2).y - (getCenter e1).y) = 0 := by
      nlinarith [mul_self_nonneg ((getCenter e2).x - (getCenter e1).x),
        mul_self_nonneg ((getCenter e2).y - (getCenter e1).y)]
    exact mul_self_eq_zero.mp h1

/-- Helper: the perpendicular vector is orthogonal to the inter-center
line. -/
theorem perp_orth (e1 e2 : Entity) :
    perpXOf e1 e2 * ((getCenter e2).x - (getCenter e1).x) +
      perpYOf e1 e2 * ((getCenter e2).y - (getCenter e1).y) = 0 := by
  by_cases h : 0 < lenOf e1 e2
  · rw [perpXOf, perpYOf, if_pos h, if_pos h]
    field_simp
    ring
  · obtain ⟨hx, hy⟩ := lenOf_zero_deltas e1 e2 h
    rw [perpXOf, perpYOf, if_neg h, if_neg h, hx, hy]
    ring

/-- Helper: the perpendicular vector has unit length (also in the fallback
case of coincident centers). -/
theorem perp_unit (e1 e2 : Entity) :
    perpXOf e1 e2 * perpXOf e1 e2 + perpYOf e1 e2 * perpYOf e1 e2 = 1 := by
  by_cases h : 0 < lenOf e1 e2
  · rw [perpXOf, perpYOf, if_pos h, if_pos h]
    have hll : lenOf e1 e2 * lenOf e1 e2 =
        ((getCenter e2).x - (getCenter e1).x) * ((getCenter e2).x - (getCenter e1).x) +
          ((getCenter e2).y - (getCenter e1).y) * ((getCenter e2).y - (getCenter e1).y) := by
      simp only [lenOf]
      exact Real.mul_self_sqrt (by
        nlinarith [mul_self_nonneg ((getCenter e2).x - (getCenter e1).x),
          mul_self_nonneg ((getCenter e2).y - (getCenter e1).y)])
    have hne : lenOf e1 e2 ≠ 0 := ne_of_gt h
    field_simp
    linarith [hll]
  · rw [perpXOf, perpYOf, if_neg h, if_neg h]
    norm_num

/-- Helper: two parallel locked lines with distinct fan-out offsets from
the set {-25, 0, 25} cannot produce the same offset border point — the
algebraic core of the fan-out separation argument. -/
theorem fanout_clash (cx1 cy1 cx2 cy2 px py si sj oi oj : ℝ)
    (hperp : px * (cx2 - cx1) + py * (cy2 - cy1) = 0)
    (hunit : px * px + py * py = 1)
    (hsi : 0 ≤ si) (hsj : 0 ≤ sj)
    (hx : cx1 + si * ((cx2 + px * oi) - cx1) + px * oi =
          cx1 + sj * ((cx2 + px * oj) - cx1) + px * oj)
    (hy : cy1 + si * ((cy2 + py * oi) - cy1) + py * oi =
          cy1 + sj * ((cy2 + py * oj) - cy1) + py * oj)
    (hsign : (oi = -25 ∧ oj = 0) ∨ (oi = -25 ∧ oj = 25) ∨ (oi = 0 ∧ oj = 25)) :
    False := by
  have hv : (si + 1) * oi - (sj + 1) * oj = 0 := by
    linear_combination px * hx + py * hy - (si - sj) * hperp -
      ((si + 1) * oi - (sj + 1) * oj) * hunit
  rcases hsign with ⟨hoi, hoj⟩ | ⟨hoi, hoj⟩ | ⟨hoi, hoj⟩ <;>
    rw [hoi, hoj] at hv <;> linarith

/-- Helper: distinct offsets from {-25, 0, 25} give distinct offset border
points on the first entity. -/
theorem lockedGeometry_border1_ne (assocs : List Association)
    (ai aj : Association) (e1 e2 : Entity) (oi oj : ℝ)
    (hoi : offsetAmountOf assocs ai e1 e2 = oi)
    (hoj : offsetAmountOf assocs aj e1 e2 = oj)
    (hsign : (oi = -25 ∧ oj = 0) ∨ (oi = -25 ∧ oj = 25) ∨ (oi = 0 ∧ oj = 25)) :
    (lockedGeometry assocs ai e1 e2).border1 ≠
      (lockedGeometry assocs aj e1 e2).border1 := by
  intro heq
  have hBi : (lockedGeometry assocs ai e1 e2).border1 =
      ⟨(getIntersection (getCenter e1)
          ⟨(getCenter e2).x + perpXOf e1 e2 * oi,
           (getCenter e2).y + perpYOf e1 e2 * oi⟩ e1).x + perpXOf e1 e2 * oi,
       (getIntersection (getCenter e1)
          ⟨(getCenter e2).x + perpXOf e1 e2 * oi,
           (getCenter e2).y + perpYOf e1 e2 * oi⟩ e1).y + perpYOf e1 e2 * oi⟩ := by
    simp only [lockedGeometry, hoi]
  have hBj : (lockedGeometry assocs aj e1 e2).border1 =
      ⟨(getIntersection (getCenter e1)
          ⟨(getCenter e2).x + perpXOf e1 e2 * oj,
           (getCenter e2).y + perpYOf e1 e2 * oj⟩ e1).x + perpXOf e1 e2 * oj,
       (getIntersection (getCenter e1)
          ⟨(getCenter e2).x + perpXOf e1 e2 * oj,
           (getCenter e2).y + perpYOf e1 e2 * oj⟩ e1).y + perpYOf e1 e2 * oj⟩ := by
    simp only [lockedGeometry, hoj]
  obtain ⟨si, hsi, hpi⟩ := getIntersection_param (getCenter e1)
    ⟨(getCenter e2).x + perpXOf e1 e2 * oi,
     (getCenter e2).y + perpYOf e1 e2 * oi⟩ e1
  obtain ⟨sj, hsj, hpj⟩ := getIntersection_param (getCenter e1)
    ⟨(getCenter e2).x + perpXOf e1 e2 * oj,
     (getCenter e2).y + perpYOf e1 e2 * oj⟩ e1
  rw [hBi, hBj, hpi, hpj] at heq
  rw [Point.mk.injEq] at heq
  exact fanout_clash (getCenter e1).x (getCenter e1).y (getCenter e2).x
    (getCenter e2).y (perpXOf e1 e2) (perpYOf e1 e2) si sj oi oj
    (perp_orth e1 e2) (perp_unit e1 e2) hsi hsj heq.1 heq.2 hsign

/-- C3 (amended): for three locked binary associations between two distinct
live entities, all listing the entities in the same connection order, the
offsets computed in stable input order are `-25`, `0` and `+25`, and no
two of the three computed border-point pairs coincide.  (With mixed
connection orders the pair-distinctness can fail, see the
counterexample.) -/
theorem parallel_fanout_same_order
    (e1 e2 : Entity) (hid : e1.id ≠ e2.id)
    (a1 a2 a3 : Association) (c1 d1 c2 d2 c3 d3 : Connection)
    (h1 : a1.connections = [c1, d1]) (hc1 : c1.entityId = e1.id)
    (hd1 : d1.entityId = e2.id)
    (h2 : a2.connections = [c2, d2]) (hc2 : c2.entityId = e1.id)
    (hd2 : d2.entityId = e2.id)
    (h3 : a3.connections = [c3, d3]) (hc3 : c3.entityId = e1.id)
    (hd3 : d3.entityId = e2.id)
    (hm1 : a1.isLabelMovable = false) (hm2 : a2.isLabelMovable = false)
    (hm3 : a3.isLabelMovable = false)
    (hid12 : a1.id ≠ a2.id) (hid13 : a1.id ≠ a3.id) (hid23 : a2.id ≠ a3.id) :
    (renderConnection [e1, e2] [a1, a2, a3] a1 0 =
        some (.lockedLine (lockedGeometry [a1, a2, a3] a1 e1 e2)) ∧
      renderConnection [e1, e2] [a1, a2, a3] a2 0 =
        some (.lockedLine (lockedGeometry [a1, a2, a3] a2 e1 e2)) ∧
      renderConnection [e1, e2] [a1, a2, a3] a3 0 =
        some (.lockedLine (lockedGeometry [a1, a2, a3] a3 e1 e2))) ∧
    ((lockedGeometry [a1, a2, a3] a1 e1 e2).offsetAmount = -25 ∧
      (lockedGeometry [a1, a2, a3] a2 e1 e2).offsetAmount = 0 ∧
      (lockedGeometry [a1, a2, a3] a3 e1 e2).offsetAmount = 25) ∧
    (((lockedGeometry [a1, a2, a3] a1 e1 e2).border1,
        (lockedGeometry [a1, a2, a3] a1 e1 e2).border2) ≠
      ((lockedGeometry [a1, a2, a3] a2 e1 e2).border1,
        (lockedGeometry [a1, a2, a3] a2 e1 e2).border2) ∧
      ((lockedGeometry [a1, a2, a3] a1 e1 e2).border1,
        (lockedGeometry [a1, a2, a3] a1 e1 e2).border2) ≠
      ((lockedGeometry [a1, a2, a3] a3 e1 e2).border1,
        (lockedGeometry [a1, a2, a3] a3 e1 e2).border2) ∧
      ((lockedGeometry [a1, a2, a3] a2 e1 e2).border1,
        (lockedGeometry [a1, a2, a3] a2 e1 e2).border2) ≠
      ((lockedGeometry [a1, a2, a3] a3 e1 e2).border1,
        (lockedGeometry [a1, a2, a3] a3 e1 e2).border2)) := by
  have hfe1 : findEntity [e1, e2] e1.id = some e1 := by
    unfold findEntity
    exact List.find?_cons_of_pos _ (by simp)
  have hfe2 : findEntity [e1, e2] e2.id = some e2 := by
    unfold findEntity
    rw [List.find?_cons_of_neg _ (by simp [hid]),
      List.find?_cons_of_pos _ (by simp)]
  have hrender : ∀ (a : Association) (c d : Connection),
      a.connections = [c, d] → c.entityId = e1.id → d.entityId = e2.id →
      a.isLabelMovable = false →
      renderConnection [e1, e2] [a1, a2, a3] a 0 =
        some (.lockedLine (lockedGeometry [a1, a2, a3] a e1 e2)) := by
    intro a c d hcs hc hd hm
    simp only [renderConnection, renderBinaryOrSpoke, hcs,
      List.getElem?_cons_zero, hc, hd, hfe1, hfe2, hm]
    simp [hid]
  have hpred : ∀ (a : Association) (c d : Connection),
      a.connections = [c, d] → c.entityId = e1.id → d.entityId = e2.id →
      a.isLabelMovable = false →
      sameEntityPairPred (pairKeyOf e1.id e2.id) a = true := by
    intro a c d hcs hc hd hm
    simp [sameEntityPairPred, hcs, hc, hd, hm]
  have hsibs : sameEntityPairAssocsOf [a1, a2, a3] e1 e2 = [a1, a2, a3] := by
    simp [sameEntityPairAssocsOf, List.filter_cons,
      hpred a1 c1 d1 h1 hc1 hd1 hm1, hpred a2 c2 d2 h2 hc2 hd2 hm2,
      hpred a3 c3 d3 h3 hc3 hd3 hm3]
  have hbeq12 : (a1.id == a2.id) = false := beq_eq_false_iff_ne.mpr hid12
  have hbeq13 : (a1.id == a3.id) = false := beq_eq_false_iff_ne.mpr hid13
  have hbeq23 : (a2.id == a3.id) = false := beq_eq_false_iff_ne.mpr hid23
  have hoff1 : offsetAmountOf [a1, a2, a3] a1 e1 e2 = -25 := by
    simp [offsetAmountOf, assocRank, hsibs, List.findIdx?_cons]
    norm_num
  have hoff2 : offsetAmountOf [a1, a2, a3] a2 e1 e2 = 0 := by
    simp [offsetAmountOf, assocRank, hsibs, List.findIdx?_cons, hbeq12]
    norm_num
  have hoff3 : offsetAmountOf [a1, a2, a3] a3 e1 e2 = 25 := by
    simp [offsetAmountOf, assocRank, hsibs, List.findIdx?_cons, hbeq13, hbeq23]
    norm_num
  refine ⟨⟨hrender a1 c1 d1 h1 hc1 hd1 hm1, hrender a2 c2 d2 h2 hc2 hd2 hm2,
      hrender a3 c3 d3 h3 hc3 hd3 hm3⟩, ⟨hoff1, hoff2, hoff3⟩, ?_, ?_, ?_⟩
  · intro heq
    exact lockedGeometry_border1_ne [a1, a2, a3] a1 a2 e1 e2 (-25) 0
      hoff1 hoff2 (Or.inl ⟨rfl, rfl⟩) (congrArg Prod.fst heq)
  · intro heq
    exact lockedGeometry_border1_ne [a1, a2, a3] a1 a3 e1 e2 (-25) 25
      hoff1 hoff3 (Or.inr (Or.inl ⟨rfl, rfl⟩)) (congrArg Prod.fst heq)
  · intro heq
    exact lockedGeometry_border1_ne [a1, a2, a3] a2 a3 e1 e2 0 25
      hoff2 hoff3 (Or.inr (Or.inr ⟨rfl, rfl⟩)) (congrArg Prod.fst heq)

/-- Witness for C3's amended theorem: three same-order locked binary
associations between `entA` and `entB` get offsets -25, 0 and 25 and
pairwise distinct border pairs. -/
theorem parallel_fanout_same_order_witness :
    (entA.id ≠ entB.id ∧ assocW1.id ≠ assocW2.id ∧ assocW1.id ≠ assocW3.id ∧
      assocW2.id ≠ assocW3.id) ∧
    ((lockedGeometry [assocW1, assocW2, assocW3] assocW1 entA entB).offsetAmount
        = -25 ∧
      (lockedGeometry [assocW1, assocW2, assocW3] assocW2 entA entB).offsetAmount
        = 0 ∧
      (lockedGeometry [assocW1, assocW2, assocW3] assocW3 entA entB).offsetAmount
        = 25) :=
  ⟨⟨by decide, by decide, by decide, by decide⟩,
   (parallel_fanout_same_order entA entB (by decide) assocW1 assocW2 assocW3
      ⟨"x1", "1", "1"⟩ ⟨"x2", "2", "1"⟩ ⟨"y1", "1", "1"⟩ ⟨"y2", "2", "1"⟩
      ⟨"z1", "1", "1"⟩ ⟨"z2", "2", "1"⟩ rfl rfl rfl rfl rfl rfl rfl rfl rfl
      rfl rfl rfl (by decide) (by decide) (by decide)).2.1⟩

/-- Rendered dimensions of `entL`. -/
theorem dims_entL : getEntityDimensions entL = (200, 100) := by
  have hL : measureTextWidth "L" = 8 := by
    have hlen : ("L" : String).length = 1 := rfl
    rw [measureTextWidth, hlen]
    norm_num
  simp only [getEntityDimensions, entL, hL, HEADER_HEIGHT, ROW_HEIGHT, PADDING,
    List.foldl_nil, List.length_nil]
  norm_num [max_def]

/-- Rendered dimensions of `entR`. -/
theorem dims_entR : getEntityDimensions entR = (200, 100) := by
  have hR : measureTextWidth "R" = 8 := by
    have hlen : ("R" : String).length = 1 := rfl
    rw [measureTextWidth, hlen]
    norm_num
  simp only [getEntityDimensions, entR, hR, HEADER_HEIGHT, ROW_HEIGHT, PADDING,
    List.foldl_nil, List.length_nil]
  norm_num [max_def]

/-- Center of `entL`. -/
theorem center_entL : getCenter entL = ⟨0, 0⟩ := by
  simp only [getCenter, dims_entL]
  simp only [entL, Point.mk.injEq]
  norm_num

/-- Center of `entR`. -/
theorem center_entR : getCenter entR = ⟨200, 0⟩ := by
  simp only [getCenter, dims_entR]
  simp only [entR, Point.mk.injEq]
  norm_num

/-- Square root value of the counterexample's center distance. -/
theorem sqrt_40000 : Real.sqrt 40000 = 200 := by
  rw [show (40000 : ℝ) = 200 ^ 2 by norm_num]
  exact Real.sqrt_sq (by norm_num)

/-- The sorted pair key of ids `"L"`, `"R"`. -/
theorem pairKey_LR : pairKeyOf "L" "R" = "L-R" := by
  rw [pairKeyOf, if_pos]
  · rfl
  · rw [String.le_iff_toList_le]
    decide

/-- The sorted pair key is order-insensitive for `"R"`, `"L"`. -/
theorem pairKey_RL : pairKeyOf "R" "L" = "L-R" := by
  rw [pairKeyOf, if_neg]
  · rfl
  · rw [String.le_iff_toList_le]
    decide

/-- All three parallel associations count as siblings for the `L`-`R`
pair. -/
theorem filter_assocPs_LR : sameEntityPairAssocsOf assocPs entL entR = assocPs := by
  simp [sameEntityPairAssocsOf, sameEntityPairPred, assocPs, assocP1, assocP2,
    assocP3, entL, entR, List.filter_cons, pairKey_LR, pairKey_RL]

/-- The sibling list is the same when computed from `assocP3`'s reversed
entity order. -/
theorem filter_assocPs_RL : sameEntityPairAssocsOf assocPs entR entL = assocPs := by
  simp [sameEntityPairAssocsOf, sameEntityPairPred, assocPs, assocP1, assocP2,
    assocP3, entL, entR, List.filter_cons, pairKey_LR, pairKey_RL]

/-- Fan-out offset of `assocP1` (rank 0 of 3). -/
theorem offset_P1 : offsetAmountOf assocPs assocP1 entL entR = -25 := by
  simp only [offsetAmountOf, assocRank, filter_assocPs_LR]
  simp [assocPs, assocP1, assocP2, assocP3, List.findIdx?_cons]
  norm_num

/-- Fan-out offset of `assocP3` (rank 2 of 3, computed from its own
reversed entity order). -/
theorem offset_P3 : offsetAmountOf assocPs assocP3 entR entL = 25 := by
  simp only [offsetAmountOf, assocRank, filter_assocPs_RL]
  simp [assocPs, assocP1, assocP2, assocP3, List.findIdx?_cons]
  norm_num

/-- Center distance for the pair `(L, R)`. -/
theorem len_LR : lenOf entL entR = 200 := by
  simp only [lenOf, center_entL, center_entR]
  norm_num [sqrt_40000]

/-- Center distance for the pair `(R, L)`. -/
theorem len_RL : lenOf entR entL = 200 := by
  simp only [lenOf, center_entL, center_entR]
  norm_num [sqrt_40000]

/-- Perpendicular vector for `(L, R)`: `(0, 1)`. -/
theorem perp_LR : perpXOf entL entR = 0 ∧ perpYOf entL entR = 1 := by
  constructor
  · simp only [perpXOf, len_LR, center_entL, center_entR]
    norm_num
  · simp only [perpYOf, len_LR, center_entL, center_entR]
    norm_num

/-- Perpendicular vector for `(R, L)`: `(0, -1)`. -/
theorem perp_RL : perpXOf entR entL = 0 ∧ perpYOf entR entL = -1 := by
  constructor
  · simp only [perpXOf, len_RL, center_entL, center_entR]
    norm_num
  · simp only [perpYOf, len_RL, center_entL, center_entR]
    norm_num

/-- Locked geometry of `assocP1` (offset `-25`): the whole line degenerates
to the single point `(100, -37.5)` on the touching edge. -/
theorem lockedGeometry_P1 :
    lockedGeometry assocPs assocP1 entL entR =
      ⟨-25, ⟨100, -37.5⟩, ⟨100, -37.5⟩, ⟨100, -37.5⟩, ⟨100, -37.5⟩,
       ⟨100, -37.5⟩⟩ := by
  simp only [lockedGeometry, offset_P1, perp_LR.1, perp_LR.2, center_entL,
    center_entR, getIntersection, slabParam, dims_entL, dims_entR,
    getLabelPosition]
  simp only [entL, entR, LockedGeom.mk.injEq, Point.mk.injEq]
  norm_num [min_def, abs_of_pos, abs_of_nonneg]

/-- Locked geometry of `assocP3` (offset `+25`, reversed entity order):
the same degenerate point `(100, -37.5)`. -/
theorem lockedGeometry_P3 :
    lockedGeometry assocPs assocP3 entR entL =
      ⟨25, ⟨100, -37.5⟩, ⟨100, -37.5⟩, ⟨100, -37.5⟩, ⟨100, -37.5⟩,
       ⟨100, -37.5⟩⟩ := by
  simp only [lockedGeometry, offset_P3, perp_RL.1, perp_RL.2, center_entL,
    center_entR, getIntersection, slabParam, dims_entL, dims_entR,
    getLabelPosition]
  simp only [entL, entR, LockedGeom.mk.injEq, Point.mk.injEq]
  norm_num [min_def, abs_of_pos, abs_of_nonneg]

/-- C3 counterexample: among three locked binary associations between the
same unordered entity pair (`assocP3` lists the entities in reversed
order), the rank-0 and rank-2 associations — offsets `-25` and `+25` —
produce identical border-intersection endpoint pairs, both collapsing to
the point `(100, -37.5)` where the two rectangles touch. -/
theorem parallel_fanout_counterexample :
    renderConnection [entL, entR] assocPs assocP1 0 =
      some (.lockedLine ⟨-25, ⟨100, -37.5⟩, ⟨100, -37.5⟩, ⟨100, -37.5⟩,
        ⟨100, -37.5⟩, ⟨100, -37.5⟩⟩) ∧
    renderConnection [entL, entR] assocPs assocP3 0 =
      some (.lockedLine ⟨25, ⟨100, -37.5⟩, ⟨100, -37.5⟩, ⟨100, -37.5⟩,
        ⟨100, -37.5⟩, ⟨100, -37.5⟩⟩) := by
  constructor
  · have hstep : renderConnection [entL, entR] assocPs assocP1 0 =
        some (.lockedLine (lockedGeometry assocPs assocP1 entL entR)) := rfl
    rw [hstep, lockedGeometry_P1]
  · have hstep : renderConnection [entL, entR] assocPs assocP3 0 =
        some (.lockedLine (lockedGeometry assocPs assocP3 entR entL)) := rfl
    rw [hstep, lockedGeometry_P3]

/-- Witness for C10: deleting entity `"1"` keeps the ternary association
with its two other connections and drops the binary one. -/
theorem delete_entity_cascade_witness :
    ((∃ c ∈ delTernary.connections, c.entityId = "1") ∧
      2 < delTernary.connections.length) ∧
    { delTernary with connections :=
        delTernary.connections.filter (fun c => !(c.entityId == "1")) }
      ∈ deleteEntityFromAssociations "1" delPrev :=
  ⟨⟨by decide, by decide⟩,
   (delete_entity_cascade "1" delPrev).2.1 delTernary
     (by simp [delPrev]) (by decide) (by decide)⟩

end UMLGen
